import Mathlib

/-!
Verification of the interactive token-acquisition flow of `fly login`
(`src/commands/login.go`).

The development shallowly embeds the functions of `login.go`:

* the pure string processing (`strings.SplitN`, the `segments[0]/segments[1]`
  access, `net/url` parsing for the redirect URL, `r.FormValue`) becomes
  Lean functions over `String` / `List Char`;
* the `fmt.Scanf("%s %s", ...)` loop of `waitForTokenInput` becomes a
  fuelled loop over an explicit stdin character stream;
* the goroutine/channel structure of `authCodeGrant`,
  `listenForTokenCallback` and `waitForTokenInput` becomes a small labelled
  transition system with rendezvous communication on the four unbuffered
  channels (`portChannel`, `tokenChannel`, `stdinChannel`, `errorChannel`);
* `Execute` (grant selection and persistence) becomes a sequential function
  with oracles for its external collaborators (`rc`, `concourse.Client`),
  recording its side effects in a list.

Go panics (out-of-range indexing, `panic(err)` after `url.Parse`) are
modelled as `Option`/dedicated panic states.
-/

set_option maxHeartbeats 1000000

namespace FlyLogin

/-! ## Characters and whitespace

`fmt.Scanf`'s `%s` verb reads a maximal run of non-whitespace characters;
with `Scanf` (as opposed to `Scan`) a newline in the input does not match
the format `"%s %s"` and produces an `unexpected newline` error.  We model
the terminal input as a `List Char` in which `' '` and `'\n'` are the
whitespace characters. -/

/-- A character that can be part of a `%s` token (not a space, not a newline). -/
def wordChar (c : Char) : Bool := !(c == ' ' || c == '\n')

/-- Skip a run of spaces (`fmt`'s scanner skips spaces, but not newlines,
before a `%s` verb). -/
def dropSpaces (l : List Char) : List Char := l.dropWhile (fun c => c == ' ')

/-- Break a list at the first occurrence of `c`: `none` when `c` does not
occur, otherwise the parts strictly before and strictly after the first
occurrence.  This is the splitting core shared by `strings.SplitN (s, " ", 2)`
and by the scheme/host/path splitting of `net/url`. -/
def breakOnChar (c : Char) : List Char → Option (List Char × List Char)
  | [] => none
  | x :: xs =>
    if x = c then some ([], xs)
    else
      match breakOnChar c xs with
      | none => none
      | some p => some (x :: p.1, p.2)

/-! ## `strings.SplitN(tokenStr, " ", 2)` (login.go line 151) -/

/-- Model of `strings.SplitN (s, " ", 2)`: `[s]` when `s` has no space,
otherwise the parts before and after the first space. -/
def splitN2 (s : String) : List String :=
  match breakOnChar ' ' s.data with
  | none => [s]
  | some p => [String.mk p.1, String.mk p.2]

/-- Model of lines 151–153 of login.go: `segments := strings.SplitN(tokenStr, " ", 2);
return segments[0], segments[1]`.  The unchecked index `segments[1]` is a Go
panic when the split yields fewer than two segments; the panic is modelled
as `none`. -/
def tokenToCredential (tokenStr : String) : Option (String × String) :=
  match (splitN2 tokenStr).get? 0, (splitN2 tokenStr).get? 1 with
  | some a, some b => some (a, b)
  | _, _ => none

/-! ## `fmt.Scanf("%s %s", &tokenType, &tokenValue)` (login.go line 199) -/

/-- The two scan errors relevant to `Scanf "%s %s"` on a terminal stream:
end of input, and a newline where the format still expects a token. -/
inductive ScanErr
  | eof
  | unexpectedNewline
deriving DecidableEq

/-- Scan one `%s` token: skip spaces; fail with `eof` at end of input and
with `unexpectedNewline` on a newline (consuming it, as Go's scanner does);
otherwise read the maximal run of non-whitespace characters.  Returns the
token (or the error) together with the unconsumed remainder of the stream. -/
def scanOne (l : List Char) : Except ScanErr (List Char) × List Char :=
  match dropSpaces l with
  | [] => (.error .eof, [])
  | c :: cs =>
    if c = '\n' then (.error .unexpectedNewline, cs)
    else ((c :: cs).takeWhile wordChar, (c :: cs).dropWhile wordChar) |>
      fun p => (.ok p.1, p.2)

/-- The quadruple returned by one `fmt.Scanf("%s %s", &tokenType, &tokenValue)`
call: the count of items scanned, the error if any, the two scanned strings
(zero values when not scanned), and the unconsumed remainder of stdin. -/
structure ScanfRes where
  count : Nat
  err : Option ScanErr
  t1 : String
  t2 : String
  rest : List Char
deriving DecidableEq

/-- Model of `fmt.Scanf("%s %s", &tokenType, &tokenValue)`: scan two `%s`
tokens (the space in the format matches any run of spaces, which `scanOne`'s
leading `dropSpaces` performs). -/
def scanf2 (l : List Char) : ScanfRes :=
  match scanOne l with
  | (.error e, r) => ⟨0, some e, "", "", r⟩
  | (.ok tok1, r1) =>
    match scanOne r1 with
    | (.error e, r2) => ⟨1, some e, String.mk tok1, "", r2⟩
    | (.ok tok2, r2) => ⟨2, none, String.mk tok1, String.mk tok2, r2⟩

/-! ## `waitForTokenInput` (login.go lines 193–213)

The loop prompts, scans, and
* on a scan error with `count != 2` prints the format hint and loops;
* on a scan error with `count == 2` sends the error and returns;
* on success sends `tokenType + " " + tokenValue` and breaks.

The loop need not terminate (e.g. on EOF the same scan error recurs
forever), so it is modelled with fuel; `looping` means the fuel ran out
with the loop still running. -/

/-- How one run of the `waitForTokenInput` loop ends (within the given fuel). -/
inductive WaitOutcome
  | token (s : String)
  | fatal (e : ScanErr)
  | looping
deriving DecidableEq

/-- Result of running the `waitForTokenInput` loop: its outcome, the
unconsumed stdin, and how many prompts and format hints it printed. -/
structure WaitRes where
  outcome : WaitOutcome
  rest : List Char
  prompts : Nat
  hints : Nat
deriving DecidableEq

/-- Model of `waitForTokenInput` (login.go lines 193–213), with fuel
bounding the number of loop iterations observed. -/
def waitForTokenInput : Nat → List Char → WaitRes
  | 0, l => ⟨.looping, l, 0, 0⟩
  | fuel + 1, l =>
    let r := scanf2 l
    match r.err with
    | some e =>
      if r.count ≠ 2 then
        let w := waitForTokenInput fuel r.rest
        ⟨w.outcome, w.rest, w.prompts + 1, w.hints + 1⟩
      else ⟨.fatal e, r.rest, 1, 0⟩
    | none => ⟨.token (r.t1 ++ " " ++ r.t2), r.rest, 1, 0⟩

/-! ## Lemmas about the `Scanf` model -/

/-- A stream position at which a `%s` token stops: end of input or a
whitespace character. -/
def boundaryOk : List Char → Prop
  | [] => True
  | c :: _ => wordChar c = false

/-! ## The redirect URL (login.go lines 130–137)

`authCodeGrant` builds `"http://127.0.0.1:" + port + "/auth/callback"`,
parses it with `url.Parse` (panicking on a parse error) and prints
`"    %s/sky/login?redirect=%s\n"` with the target URL and
`redirectUrl.String()`. -/

/-- The parts of a parsed `net/url.URL` that matter here. -/
structure GoURL where
  scheme : String
  host : String
  path : String
deriving DecidableEq

/-- Model of `net/url.Parse` for URLs of the shape `scheme://host/path`
(no query, fragment or userinfo — the only shape `authCodeGrant` builds):
split at the first `:`, require `//`, then split host from path at the
first `/`.  Any other shape is mapped to `none` (a parse the model does
not cover), which `authCodeGrant` turns into a panic. -/
def urlParse (s : String) : Option GoURL :=
  match breakOnChar ':' s.data with
  | none => none
  | some p =>
    match p.2 with
    | '/' :: '/' :: rest =>
      match breakOnChar '/' rest with
      | none => some ⟨String.mk p.1, String.mk rest, ""⟩
      | some q => some ⟨String.mk p.1, String.mk q.1, String.mk ('/' :: q.2)⟩
    | _ => none

/-- Model of `url.URL.String` for the URLs above. -/
def urlToString (u : GoURL) : String := u.scheme ++ "://" ++ u.host ++ u.path

/-- The line printed by `fmt.Printf("    %s/sky/login?redirect=%s\n", targetUrl,
redirectUrl.String())` — `none` models the `panic(err)` branch when
`url.Parse` fails. -/
def loginPrinted (targetUrl port : String) : Option String :=
  match urlParse ("http://127.0.0.1:" ++ port ++ "/auth/callback") with
  | none => none
  | some u => some ("    " ++ targetUrl ++ "/sky/login?redirect=" ++ urlToString u)

/-! ## The callback HTTP handler (login.go lines 156–163)

The handler sends `r.FormValue("token")` on `tokenChannel` and answers
with `http.Redirect(w, r, targetUrl + "/public/fly_success",
http.StatusTemporaryRedirect)`. -/

/-- A request's query parameters (the part of the request the handler reads). -/
def formValue (query : List (String × String)) (key : String) : String :=
  match query.find? (fun kv => kv.1 == key) with
  | some kv => kv.2
  | none => ""

/-- Value of `http.StatusTemporaryRedirect` in `net/http`. -/
def statusTemporaryRedirect : Nat := 307

/-- Model of the callback handler: the string sent on `tokenChannel`,
the response status, and the redirect location. -/
def callbackHandler (targetUrl : String) (query : List (String × String)) :
    String × Nat × String :=
  (formValue query "token", statusTemporaryRedirect, targetUrl ++ "/public/fly_success")

/-! ## The goroutine/channel structure of `authCodeGrant`
(login.go lines 117–213)

`authCodeGrant` spawns `listenForTokenCallback`, blocks receiving on
`portChannel`, prints the login URL, spawns `waitForTokenInput`, and then
performs one `select` over `tokenChannel`, `stdinChannel` and
`errorChannel`.  All four channels are unbuffered, so every communication
is a rendezvous: a send blocks until the unique receiver (the main
goroutine) is at a matching receive.  The three goroutines and the
channels are modelled as a labelled transition system; an interleaving of
the goroutines is a `Relation.ReflTransGen` chain of `Step`s. -/

/-- Errors flowing on `errorChannel` (bind/serve errors from the listener,
scan errors from the reader). -/
inductive GoError
  | errMsg (msg : String)
  | scanErr (e : ScanErr)
deriving DecidableEq

/-- Observable events of one `authCodeGrant`/`Execute` run, in the order
they happen. -/
inductive Event
  | portPublished (port : String)
  | printedLogin (line : String)
  | stdinStarted
  | tokenFromCallback (s : String)
  | tokenFromStdin (s : String)
  | resultOk (ttype tvalue : String)
  | resultErr (e : GoError)
  | panicked
  | savedTarget (ttype tvalue : String)
deriving DecidableEq

/-- Program counter of the main goroutine (`authCodeGrant` lines 126–153,
continued by `Execute` lines 91–104). -/
inductive MainPC
  | awaitPort
  | gotPort (port : String)
  | printedUrl (port : String)
  | selecting
  | deciding (tokenStr : String)
  | doneOk (ttype tvalue : String)
  | failed (e : GoError)
  | panickedUrl
  | panickedSplit
  | savedState (ttype tvalue : String)
deriving DecidableEq

/-- Program counter of the `listenForTokenCallback` goroutine
(lines 156–187).  `binding` carries the outcome `net.Listen` will produce,
the queue of incoming callback requests, and the outcome `srv.Serve` will
produce once the request queue is exhausted (`none`: it keeps blocking in
`Accept`).  A `sendErr`/`sendPort`/`sendToken` state is a goroutine blocked
on an unbuffered channel send. -/
inductive ListenerPC
  | binding (bind : Except GoError String) (reqs : List (List (String × String)))
      (serveErr : Option GoError)
  | sendErr (e : GoError)
  | sendPort (port : String) (reqs : List (List (String × String)))
      (serveErr : Option GoError)
  | serving (reqs : List (List (String × String))) (serveErr : Option GoError)
  | sendToken (tok : String) (reqs : List (List (String × String)))
      (serveErr : Option GoError)
  | dead

/-- Program counter of the `waitForTokenInput` goroutine (lines 193–213):
not yet spawned, in its scan loop, blocked sending its token on
`stdinChannel`, blocked sending a scan error on `errorChannel`, or
returned. -/
inductive StdinPC
  | notStarted (input : List Char)
  | running (input : List Char)
  | sendStdin (s : String)
  | sendErrSt (e : GoError)
  | dead

/-- Joint state: the three goroutines plus the event trace so far. -/
structure Sys where
  main : MainPC
  listener : ListenerPC
  rdr : StdinPC
  trace : List Event

/-- One interleaving step.  Rendezvous steps require the sender to be in
its send state and the main goroutine to be at the matching receive
(`portChannel` only at line 128, the other three only in the `select` at
lines 142–149); internal steps advance a single goroutine. -/
inductive Step (targetUrl : String) : Sys → Sys → Prop
  | bindFail (m t tr e reqs so) :
      Step targetUrl ⟨m, .binding (.error e) reqs so, t, tr⟩
        ⟨m, .sendErr e, t, tr⟩
  | bindOk (m t tr p reqs so) :
      Step targetUrl ⟨m, .binding (.ok p) reqs so, t, tr⟩
        ⟨m, .sendPort p reqs so, t, tr⟩
  | portRendezvous (t tr p reqs so) :
      Step targetUrl ⟨.awaitPort, .sendPort p reqs so, t, tr⟩
        ⟨.gotPort p, .serving reqs so, t, tr ++ [.portPublished p]⟩
  | printUrlOk (L t tr p line) : loginPrinted targetUrl p = some line →
      Step targetUrl ⟨.gotPort p, L, t, tr⟩
        ⟨.printedUrl p, L, t, tr ++ [.printedLogin line]⟩
  | printUrlPanic (L t tr p) : loginPrinted targetUrl p = none →
      Step targetUrl ⟨.gotPort p, L, t, tr⟩
        ⟨.panickedUrl, L, t, tr ++ [.panicked]⟩
  | startStdin (L tr p input) :
      Step targetUrl ⟨.printedUrl p, L, .notStarted input, tr⟩
        ⟨.selecting, L, .running input, tr ++ [.stdinStarted]⟩
  | serveNext (m t tr q reqs so) :
      Step targetUrl ⟨m, .serving (q :: reqs) so, t, tr⟩
        ⟨m, .sendToken (formValue q "token") reqs so, t, tr⟩
  | serveFail (m t tr e) :
      Step targetUrl ⟨m, .serving [] (some e), t, tr⟩
        ⟨m, .sendErr e, t, tr⟩
  | tokenRendezvous (t tr tok reqs so) :
      Step targetUrl ⟨.selecting, .sendToken tok reqs so, t, tr⟩
        ⟨.deciding tok, .serving reqs so, t, tr ++ [.tokenFromCallback tok]⟩
  | errRendezvous (t tr e) :
      Step targetUrl ⟨.selecting, .sendErr e, t, tr⟩
        ⟨.failed e, .dead, t, tr ++ [.resultErr e]⟩
  | stdinIterOk (m L tr input) : (scanf2 input).err = none →
      Step targetUrl ⟨m, L, .running input, tr⟩
        ⟨m, L, .sendStdin ((scanf2 input).t1 ++ " " ++ (scanf2 input).t2), tr⟩
  | stdinIterHint (m L tr input e) : (scanf2 input).err = some e →
      (scanf2 input).count ≠ 2 →
      Step targetUrl ⟨m, L, .running input, tr⟩
        ⟨m, L, .running (scanf2 input).rest, tr⟩
  | stdinIterFatal (m L tr input e) : (scanf2 input).err = some e →
      (scanf2 input).count = 2 →
      Step targetUrl ⟨m, L, .running input, tr⟩
        ⟨m, L, .sendErrSt (.scanErr e), tr⟩
  | stdinRendezvous (L tr s) :
      Step targetUrl ⟨.selecting, L, .sendStdin s, tr⟩
        ⟨.deciding s, L, .dead, tr ++ [.tokenFromStdin s]⟩
  | stdinErrRendezvous (L tr e) :
      Step targetUrl ⟨.selecting, L, .sendErrSt e, tr⟩
        ⟨.failed e, L, .dead, tr ++ [.resultErr e]⟩
  | splitOk (L t tr s a b) : (splitN2 s).get? 0 = some a →
      (splitN2 s).get? 1 = some b →
      Step targetUrl ⟨.deciding s, L, t, tr⟩
        ⟨.doneOk a b, L, t, tr ++ [.resultOk a b]⟩
  | splitPanic (L t tr s) : (splitN2 s).get? 1 = none →
      Step targetUrl ⟨.deciding s, L, t, tr⟩
        ⟨.panickedSplit, L, t, tr ++ [.panicked]⟩
  | saveStep (L t tr a b) :
      Step targetUrl ⟨.doneOk a b, L, t, tr⟩
        ⟨.savedState a b, L, t, tr ++ [.savedTarget a b]⟩

/-- Interleavings: the reflexive-transitive closure of `Step`. -/
def Reach (targetUrl : String) : Sys → Sys → Prop :=
  Relation.ReflTransGen (Step targetUrl)

/-- The state at the start of `authCodeGrant`'s concurrent phase: the
listener goroutine just spawned (line 126), the main goroutine blocked on
`<-portChannel` (line 128), the reader not yet started (line 140). -/
def initSys (bind : Except GoError String) (reqs : List (List (String × String)))
    (serveErr : Option GoError) (input : List Char) : Sys :=
  ⟨.awaitPort, .binding bind reqs serveErr, .notStarted input, []⟩

/-! ## Invariants of the transition system -/

/-- Events recording that the `select` produced the run's outcome
(a token pair returned, or an error returned). -/
def isResultE : Event → Bool
  | .resultOk _ _ => true
  | .resultErr _ => true
  | _ => false

/-- Events recording that the `select` consumed a credential string from
one of the two producers. -/
def isTokenE : Event → Bool
  | .tokenFromCallback _ => true
  | .tokenFromStdin _ => true
  | _ => false

/-- Events recording a `saveTarget` call. -/
def isSaveE : Event → Bool
  | .savedTarget _ _ => true
  | _ => false

/-- Number of events satisfying `p` in a trace. -/
def countE (p : Event → Bool) (tr : List Event) : Nat := (tr.filter p).length

/-- Result events already emitted when the main goroutine is at a given
program counter. -/
def resOf : MainPC → Nat
  | .doneOk _ _ => 1
  | .savedState _ _ => 1
  | .failed _ => 1
  | _ => 0

/-- Credential strings already consumed by the `select` when the main
goroutine is at a given program counter. -/
def tokOf : MainPC → Nat
  | .deciding _ => 1
  | .doneOk _ _ => 1
  | .savedState _ _ => 1
  | .panickedSplit => 1
  | _ => 0

/-- `saveTarget` calls already made when the main goroutine is at a given
program counter. -/
def savOf : MainPC → Nat
  | .savedState _ _ => 1
  | _ => 0

/-- The single-shot invariant: the trace's result, consumed-credential and
save counts are determined by the main goroutine's program counter (each
is at most one). -/
def InvCount (s : Sys) : Prop :=
  countE isResultE s.trace = resOf s.main ∧
  countE isTokenE s.trace = tokOf s.main ∧
  countE isSaveE s.trace = savOf s.main

/-! ## The port/URL invariant -/

/-- With a bind outcome `ok p`, the listener only ever carries the port `p`. -/
def listenerPortOk (p : String) : ListenerPC → Prop
  | .binding b _ _ => b = .ok p
  | .sendPort q _ _ => q = p
  | _ => True

/-- The port stored in the main goroutine's program counter is the one the
listener reported. -/
def mainPortOk (p : String) : MainPC → Prop
  | .gotPort q => q = p
  | .printedUrl q => q = p
  | _ => True

/-- The ordering invariant behind C7: any printed login line was produced
by `loginPrinted` from the listener's port `p`, and the trace contains the
port report strictly before the printed line. -/
def InvPort (tu p : String) (s : Sys) : Prop :=
  listenerPortOk p s.listener ∧ mainPortOk p s.main ∧
  (∀ q, s.main = .gotPort q → List.Sublist [Event.portPublished q] s.trace) ∧
  (∀ line, Event.printedLogin line ∈ s.trace →
    loginPrinted tu p = some line ∧
    List.Sublist [Event.portPublished p, Event.printedLogin line] s.trace)

/-! ## `Execute` (login.go lines 26–105) and `passwordGrant` (lines 107–115)

`Execute` validates the configuration, resolves the target, selects the
grant (password grant when both `-u` and `-p` are non-empty, the
browser/manual race otherwise), and persists the resulting token.  Its
external collaborators (`ioutil.ReadFile`, `rc.NewUnauthenticatedTarget`,
`rc.LoadTargetWithInsecure`, `target.ValidateWithWarningOnly`,
`client.PasswordGrant`, `rc.SaveTarget`) are oracles supplying the values
those calls would return; the side effects `Execute` performs are recorded
in order.  The body of `authCodeGrant` is the transition system above; in
this sequential model its invocation is recorded as the
`authCodeGrantCalled` effect (the callback listener and the manual reader
are started only inside it), with its outcome supplied by an oracle. -/

/-- The flag fields of `LoginCommand` (login.go lines 17–24). -/
structure LoginCommand where
  atcURL : String
  insecure : Bool
  username : String
  password : String
  teamName : String
  caCert : String

/-- The slice of `rc.Target` that `Execute` reads after resolution. -/
structure TargetInfo where
  clientURL : String
  team : String
  caCertPem : String

/-- The token returned by `client.PasswordGrant` (an oauth2 token: its
`TokenType` and `AccessToken` fields are read at lines 114). -/
structure AuthToken where
  tokenType : String
  accessToken : String

/-- Oracles for `Execute`'s external collaborators. -/
structure ExecEnv where
  flyTarget : String
  readCACertFile : Except GoError String
  newUnauthenticatedTarget : Except GoError TargetInfo
  loadTargetWithInsecure : Except GoError TargetInfo
  validateWarn : Option GoError
  passwordGrantResult : Except GoError AuthToken
  authCodeGrantResult : Except GoError (String × String)
  saveTargetResult : Option GoError

/-- Side effects of one `Execute` run, in order. -/
inductive ExecEffect
  | printTeam (team : String)
  | passwordGrantCalled (u pw : String)
  | authCodeGrantCalled (url : String)
  | printBlank
  | saveTargetCalled (url ttype tvalue : String)
  | printSaved
deriving DecidableEq

/-- Model of `passwordGrant` (lines 107–115): forward the error, otherwise
return the token's type and access token. -/
def passwordGrant (res : Except GoError AuthToken) :
    Except GoError (String × String) :=
  match res with
  | .error e => .error e
  | .ok t => .ok (t.tokenType, t.accessToken)

/-- The grant selection of lines 86–90: password grant iff both username
and password are non-empty, the browser/manual race otherwise. -/
def grantStep (cmd : LoginCommand) (env : ExecEnv) (ti : TargetInfo) :
    Except GoError (String × String) × List ExecEffect :=
  if cmd.username ≠ "" ∧ cmd.password ≠ "" then
    (passwordGrant env.passwordGrantResult,
      [ExecEffect.passwordGrantCalled cmd.username cmd.password])
  else
    (env.authCodeGrantResult, [ExecEffect.authCodeGrantCalled ti.clientURL])

/-- Model of `Execute` (lines 26–105).  Returns the error result and the
list of effects performed.  The team-name defaulting of lines 44–46 only
feeds the resolution oracle and is absorbed into it. -/
def executeModel (cmd : LoginCommand) (env : ExecEnv) (args : List String) :
    Except GoError Unit × List ExecEffect :=
  if env.flyTarget = "" then
    (.error (.errMsg "name for the target must be specified (--target/-t)"), [])
  else
    match (if cmd.caCert = "" then Except.ok "" else env.readCACertFile) with
    | .error e => (.error e, [])
    | .ok _ =>
      match (if cmd.atcURL ≠ "" then env.newUnauthenticatedTarget
             else env.loadTargetWithInsecure) with
      | .error e => (.error e, [])
      | .ok ti =>
        if args ≠ [] then
          (.error (.errMsg "unexpected argument"), [ExecEffect.printTeam ti.team])
        else
          match env.validateWarn with
          | some e => (.error e, [ExecEffect.printTeam ti.team])
          | none =>
            match grantStep cmd env ti with
            | (.error e, effs) => (.error e, ExecEffect.printTeam ti.team :: effs)
            | (.ok tv, effs) =>
              match env.saveTargetResult with
              | some e =>
                (.error e, ExecEffect.printTeam ti.team :: effs ++
                  [ExecEffect.printBlank,
                   ExecEffect.saveTargetCalled ti.clientURL tv.1 tv.2])
              | none =>
                (.ok (), ExecEffect.printTeam ti.team :: effs ++
                  [ExecEffect.printBlank,
                   ExecEffect.saveTargetCalled ti.clientURL tv.1 tv.2,
                   ExecEffect.printSaved])

/-- Effects that start the browser/manual race. -/
def isAuthCodeEff : ExecEffect → Bool
  | .authCodeGrantCalled _ => true
  | _ => false

/-- Effects that call `client.PasswordGrant`. -/
def isPasswordEff : ExecEffect → Bool
  | .passwordGrantCalled _ _ => true
  | _ => false

/-- Effects that call `rc.SaveTarget`. -/
def isSaveEff : ExecEffect → Bool
  | .saveTargetCalled _ _ _ => true
  | _ => false

/-! ## A concrete run

A run in which both producers are ready (one pending callback request and
one valid manual line) and the `select` takes the manual credential; the
callback handler stays blocked sending its token, which is never consumed. -/

/-- A sample target URL. -/
def tu0 : String := "https://atc"

/-- A sample callback request carrying the token query parameter. -/
def req0 : List (String × String) := [("token", "Bearer abc123")]

/-- A sample stdin stream containing one valid manual line. -/
def input0 : List Char := "bearer tok\n".data

/-- The initial state of the sample run. -/
def sys0 : Sys := initSys (.ok "8080") [req0] none input0

/-- The login line printed in the sample run. -/
def line0 : String := "    https://atc/sky/login?redirect=http://127.0.0.1:8080/auth/callback"

/-- The final state of the sample run: saved exactly once, the callback
handler still blocked on its unconsumed send. -/
def sysFin : Sys :=
  ⟨.savedState "bearer" "tok", .sendToken "Bearer abc123" [] none, .dead,
   [.portPublished "8080", .printedLogin line0, .stdinStarted,
    .tokenFromStdin "bearer tok", .resultOk "bearer" "tok",
    .savedTarget "bearer" "tok"]⟩

/-- The resolved configuration of the spec's password-grant example:
username "brock-samson", a non-empty password, no explicit ATC URL. -/
def cmd0 : LoginCommand := ⟨"", false, "brock-samson", "pw", "", ""⟩

/-- The target returned by the resolution oracle in the example. -/
def ti0 : TargetInfo := ⟨"https://atc", "main", ""⟩

/-- Oracles for the example: the remote exchange returns
`{token_type: "bearer", access_token: "xyz"}` and saving succeeds. -/
def env0 : ExecEnv :=
  ⟨"target1", .ok "", .error (.errMsg "unused"), .ok ti0, none,
   .ok ⟨"bearer", "xyz"⟩, .error (.errMsg "unused"), none⟩

/-! ## Basic lemmas about the string machinery -/

theorem data_append (a b : String) : (a ++ b).data = a.data ++ b.data := by
  cases a; cases b; rfl

theorem string_eq_of_data {a b : String} (h : a.data = b.data) : a = b := by
  cases a; cases b; exact congrArg String.mk h

theorem breakOnChar_eq_none {c : Char} :
    ∀ {l : List Char}, c ∉ l → breakOnChar c l = none := by
  intro l
  induction l with
  | nil => intro _; rfl
  | cons x xs ih =>
    intro h
    have hx : ¬ x = c := fun hxc => h (hxc ▸ List.mem_cons_self x xs)
    have hxs : c ∉ xs := fun hm => h (List.mem_cons_of_mem x hm)
    simp [breakOnChar, hx, ih hxs]

theorem breakOnChar_split {c : Char} :
    ∀ {pre suf : List Char}, c ∉ pre →
      breakOnChar c (pre ++ c :: suf) = some (pre, suf) := by
  intro pre
  induction pre with
  | nil => intro suf _; simp [breakOnChar]
  | cons x xs ih =>
    intro suf h
    have hx : ¬ x = c := fun hxc => h (hxc ▸ List.mem_cons_self x xs)
    have hxs : c ∉ xs := fun hm => h (List.mem_cons_of_mem x hm)
    simp [breakOnChar, hx, ih hxs]

theorem mem_of_breakOnChar_eq_some {c : Char} :
    ∀ {l : List Char} {p}, breakOnChar c l = some p → c ∈ l := by
  intro l
  induction l with
  | nil => intro p h; simp [breakOnChar] at h
  | cons x xs ih =>
    intro p h
    by_cases hx : x = c
    · exact hx ▸ List.mem_cons_self x xs
    · simp only [breakOnChar, if_neg hx] at h
      match hb : breakOnChar c xs with
      | none => rw [hb] at h; exact absurd h (by simp)
      | some q => exact List.mem_cons_of_mem x (ih hb)

theorem wordChar_spec {c : Char} (h : wordChar c = true) : c ≠ ' ' ∧ c ≠ '\n' := by
  simpa [wordChar] using h

theorem dropSpaces_append_spaces {sp : List Char} (h : ∀ c ∈ sp, c = ' ')
    (l : List Char) : dropSpaces (sp ++ l) = dropSpaces l := by
  induction sp with
  | nil => rfl
  | cons x xs ih =>
    have hx : x = ' ' := h x (List.mem_cons_self x xs)
    have hxs : ∀ c ∈ xs, c = ' ' := fun c hc => h c (List.mem_cons_of_mem x hc)
    simp [dropSpaces, hx, List.dropWhile] at ih ⊢
    exact ih hxs

theorem dropSpaces_cons_of_ne {c : Char} (h : c ≠ ' ') (l : List Char) :
    dropSpaces (c :: l) = c :: l := by
  have hb : (c == ' ') = false := by simp [h]
  simp [dropSpaces, List.dropWhile, hb]

theorem dropSpaces_eq_nil {sp : List Char} (h : ∀ c ∈ sp, c = ' ') :
    dropSpaces sp = [] := by
  have := dropSpaces_append_spaces h []
  simpa using this

theorem takeWhile_word_split {t : List Char} (ht : ∀ c ∈ t, wordChar c = true) :
    ∀ {r : List Char}, boundaryOk r →
      (t ++ r).takeWhile wordChar = t ∧ (t ++ r).dropWhile wordChar = r := by
  induction t with
  | nil =>
    intro r hr
    cases r with
    | nil => exact ⟨rfl, rfl⟩
    | cons c cs =>
      have hc : wordChar c = false := hr
      simp [List.takeWhile, List.dropWhile, hc]
  | cons x xs ih =>
    intro r hr
    have hx : wordChar x = true := ht x (List.mem_cons_self x xs)
    have hxs : ∀ c ∈ xs, wordChar c = true := fun c hc => ht c (List.mem_cons_of_mem x hc)
    have := ih hxs hr
    simp [List.takeWhile, List.dropWhile, hx, this.1, this.2]

theorem scanOne_token {sp t r : List Char} (hsp : ∀ c ∈ sp, c = ' ')
    (ht0 : t ≠ []) (ht : ∀ c ∈ t, wordChar c = true) (hr : boundaryOk r) :
    scanOne (sp ++ (t ++ r)) = (.ok t, r) := by
  cases t with
  | nil => exact absurd rfl ht0
  | cons c cs =>
    have hc : wordChar c = true := ht c (List.mem_cons_self c cs)
    have hcs : c ≠ ' ' ∧ c ≠ '\n' := wordChar_spec hc
    have hdrop : dropSpaces (sp ++ (c :: cs ++ r)) = c :: (cs ++ r) := by
      rw [dropSpaces_append_spaces hsp]
      simpa using dropSpaces_cons_of_ne hcs.1 (cs ++ r)
    have hsplit := takeWhile_word_split ht hr
    simp only [scanOne, hdrop, if_neg hcs.2]
    simpa using And.intro hsplit.1 hsplit.2

theorem scanOne_newline {sp r : List Char} (hsp : ∀ c ∈ sp, c = ' ') :
    scanOne (sp ++ '\n' :: r) = (.error .unexpectedNewline, r) := by
  have hdrop : dropSpaces (sp ++ '\n' :: r) = '\n' :: r := by
    rw [dropSpaces_append_spaces hsp]
    exact dropSpaces_cons_of_ne (by decide) r
  simp [scanOne, hdrop]

theorem scanOne_eof {sp : List Char} (hsp : ∀ c ∈ sp, c = ' ') :
    scanOne sp = (.error .eof, []) := by
  simp [scanOne, dropSpaces_eq_nil hsp]

theorem boundaryOk_spaces_newline {sp r : List Char} (hsp : ∀ c ∈ sp, c = ' ') :
    boundaryOk (sp ++ '\n' :: r) := by
  cases sp with
  | nil => exact (by decide : wordChar '\n' = false)
  | cons x xs =>
    have hx : x = ' ' := hsp x (List.mem_cons_self x xs)
    show wordChar x = false
    rw [hx]; decide

theorem boundaryOk_space_cons (l : List Char) : boundaryOk (' ' :: l) := by
  exact (by decide : wordChar ' ' = false)

theorem scanf2_two_tokens {sp1 t1 sp2 t2 r : List Char}
    (hsp1 : ∀ c ∈ sp1, c = ' ') (hsp2 : ∀ c ∈ sp2, c = ' ')
    (ht1 : t1 ≠ []) (ht1w : ∀ c ∈ t1, wordChar c = true)
    (ht2 : t2 ≠ []) (ht2w : ∀ c ∈ t2, wordChar c = true)
    (hr : boundaryOk r) :
    scanf2 (sp1 ++ (t1 ++ (' ' :: (sp2 ++ (t2 ++ r))))) =
      ⟨2, none, String.mk t1, String.mk t2, r⟩ := by
  have h1 : scanOne (sp1 ++ (t1 ++ (' ' :: (sp2 ++ (t2 ++ r))))) =
      (.ok t1, ' ' :: (sp2 ++ (t2 ++ r))) :=
    scanOne_token hsp1 ht1 ht1w (boundaryOk_space_cons _)
  have h2 : scanOne (' ' :: (sp2 ++ (t2 ++ r))) = (.ok t2, r) := by
    have : (' ' :: sp2) ++ (t2 ++ r) = ' ' :: (sp2 ++ (t2 ++ r)) := by simp
    rw [← this]
    exact scanOne_token (by
      intro c hc
      rcases List.mem_cons.mp hc with h | h
      · exact h
      · exact hsp2 c h) ht2 ht2w hr
  simp [scanf2, h1, h2]

theorem scanf2_zero_tokens {sp r : List Char} (hsp : ∀ c ∈ sp, c = ' ') :
    scanf2 (sp ++ '\n' :: r) = ⟨0, some .unexpectedNewline, "", "", r⟩ := by
  simp [scanf2, scanOne_newline hsp]

theorem scanf2_one_token {sp1 t sp2 r : List Char}
    (hsp1 : ∀ c ∈ sp1, c = ' ') (hsp2 : ∀ c ∈ sp2, c = ' ')
    (ht0 : t ≠ []) (htw : ∀ c ∈ t, wordChar c = true) :
    scanf2 (sp1 ++ (t ++ (sp2 ++ '\n' :: r))) =
      ⟨1, some .unexpectedNewline, String.mk t, "", r⟩ := by
  have h1 : scanOne (sp1 ++ (t ++ (sp2 ++ '\n' :: r))) =
      (.ok t, sp2 ++ '\n' :: r) :=
    scanOne_token hsp1 ht0 htw (boundaryOk_spaces_newline hsp2)
  have h2 : scanOne (sp2 ++ '\n' :: r) = (.error .unexpectedNewline, r) :=
    scanOne_newline hsp2
  simp [scanf2, h1, h2]

/-! ## Behaviour of the `waitForTokenInput` loop -/

theorem waitForTokenInput_eof (fuel : Nat) :
    waitForTokenInput fuel [] = ⟨.looping, [], fuel, fuel⟩ := by
  induction fuel with
  | zero => rfl
  | succ n ih =>
    have h : scanf2 [] = ⟨0, some .eof, "", "", []⟩ := rfl
    simp [waitForTokenInput, h, ih]

theorem waitForTokenInput_two_tokens {sp1 t1 sp2 t2 r : List Char} (fuel : Nat)
    (hsp1 : ∀ c ∈ sp1, c = ' ') (hsp2 : ∀ c ∈ sp2, c = ' ')
    (ht1 : t1 ≠ []) (ht1w : ∀ c ∈ t1, wordChar c = true)
    (ht2 : t2 ≠ []) (ht2w : ∀ c ∈ t2, wordChar c = true)
    (hr : boundaryOk r) :
    waitForTokenInput (fuel + 1) (sp1 ++ (t1 ++ (' ' :: (sp2 ++ (t2 ++ r))))) =
      ⟨.token (String.mk t1 ++ " " ++ String.mk t2), r, 1, 0⟩ := by
  have h := scanf2_two_tokens hsp1 hsp2 ht1 ht1w ht2 ht2w hr
  simp [waitForTokenInput, h]

theorem waitForTokenInput_zero_tokens {sp rest : List Char} (fuel : Nat)
    (hsp : ∀ c ∈ sp, c = ' ') :
    waitForTokenInput (fuel + 1) (sp ++ '\n' :: rest) =
      ⟨(waitForTokenInput fuel rest).outcome, (waitForTokenInput fuel rest).rest,
       (waitForTokenInput fuel rest).prompts + 1,
       (waitForTokenInput fuel rest).hints + 1⟩ := by
  have h := scanf2_zero_tokens (r := rest) hsp
  simp [waitForTokenInput, h]

theorem waitForTokenInput_one_token {sp1 t sp2 rest : List Char} (fuel : Nat)
    (hsp1 : ∀ c ∈ sp1, c = ' ') (hsp2 : ∀ c ∈ sp2, c = ' ')
    (ht0 : t ≠ []) (htw : ∀ c ∈ t, wordChar c = true) :
    waitForTokenInput (fuel + 1) (sp1 ++ (t ++ (sp2 ++ '\n' :: rest))) =
      ⟨(waitForTokenInput fuel rest).outcome, (waitForTokenInput fuel rest).rest,
       (waitForTokenInput fuel rest).prompts + 1,
       (waitForTokenInput fuel rest).hints + 1⟩ := by
  have h := scanf2_one_token (r := rest) hsp1 hsp2 ht0 htw
  simp [waitForTokenInput, h]

/-! ## Behaviour of the split step (login.go lines 151–153) -/

theorem breakOnChar_none_iff {c : Char} {l : List Char} :
    breakOnChar c l = none ↔ c ∉ l := by
  induction l with
  | nil => simp [breakOnChar]
  | cons x xs ih =>
    by_cases hx : x = c
    · subst hx
      simp [breakOnChar]
    · simp only [breakOnChar, if_neg hx]
      constructor
      · intro h hm
        match hb : breakOnChar c xs with
        | some q => rw [hb] at h; exact absurd h (by simp)
        | none =>
          rcases List.mem_cons.mp hm with he | hm'
          · exact hx he.symm
          · exact (ih.mp hb) hm'
      · intro h
        have hxs : c ∉ xs := fun hm => h (List.mem_cons_of_mem x hm)
        rw [ih.mpr hxs]

theorem splitN2_join {t1 t2 : List Char} (h : ' ' ∉ t1) :
    splitN2 (String.mk t1 ++ " " ++ String.mk t2) = [String.mk t1, String.mk t2] := by
  have hd : (String.mk t1 ++ " " ++ String.mk t2).data = t1 ++ ' ' :: t2 := by
    simp [data_append]
  simp [splitN2, hd, breakOnChar_split h]

theorem tokenToCredential_join {t1 t2 : List Char} (h : ' ' ∉ t1) :
    tokenToCredential (String.mk t1 ++ " " ++ String.mk t2) =
      some (String.mk t1, String.mk t2) := by
  simp [tokenToCredential, splitN2_join h, List.get?]

theorem tokenToCredential_isSome_iff (s : String) :
    (tokenToCredential s).isSome ↔ ' ' ∈ s.data := by
  constructor
  · intro h
    match hb : breakOnChar ' ' s.data with
    | none => simp [tokenToCredential, splitN2, hb, List.get?] at h
    | some p => exact mem_of_breakOnChar_eq_some hb
  · intro h
    match hb : breakOnChar ' ' s.data with
    | none => exact absurd (breakOnChar_none_iff.mp hb) (by simpa using h)
    | some p => simp [tokenToCredential, splitN2, hb, List.get?]

theorem mk_data (s : String) : String.mk s.data = s := by cases s; rfl

theorem string_append_assoc (a b c : String) : a ++ b ++ c = a ++ (b ++ c) :=
  string_eq_of_data (by simp [data_append])

theorem urlParse_redirect {port : String} (h : ∀ c ∈ port.data, c.isDigit) :
    urlParse ("http://127.0.0.1:" ++ port ++ "/auth/callback") =
      some ⟨"http", String.mk ("127.0.0.1:".data ++ port.data), "/auth/callback"⟩ := by
  have hns : '/' ∉ "127.0.0.1:".data ++ port.data := by
    intro hm
    rcases List.mem_append.mp hm with hm | hm
    · revert hm; decide
    · exact absurd (h _ hm) (by decide)
  have f1 : "http://127.0.0.1:".data =
      "http".data ++ ':' :: ('/' :: '/' :: "127.0.0.1:".data) := by decide
  have f2 : "/auth/callback".data = '/' :: "auth/callback".data := by decide
  have hd : ("http://127.0.0.1:" ++ port ++ "/auth/callback").data =
      "http".data ++ ':' :: ('/' :: '/' ::
        (("127.0.0.1:".data ++ port.data) ++ '/' :: "auth/callback".data)) := by
    rw [data_append, data_append, f1, f2]
    simp [List.append_assoc]
  have hb1 : breakOnChar ':' (("http://127.0.0.1:" ++ port ++ "/auth/callback").data) =
      some ("http".data, '/' :: '/' ::
        (("127.0.0.1:".data ++ port.data) ++ '/' :: "auth/callback".data)) := by
    rw [hd]; exact breakOnChar_split (by decide)
  have hb2 : breakOnChar '/'
      (("127.0.0.1:".data ++ port.data) ++ '/' :: "auth/callback".data) =
      some ("127.0.0.1:".data ++ port.data, "auth/callback".data) :=
    breakOnChar_split hns
  simp only [urlParse, hb1, hb2]

theorem loginPrinted_digits {targetUrl port : String}
    (h : ∀ c ∈ port.data, c.isDigit) :
    loginPrinted targetUrl port =
      some ("    " ++ targetUrl ++ "/sky/login?redirect=http://127.0.0.1:" ++
        port ++ "/auth/callback") := by
  rw [loginPrinted, urlParse_redirect h]
  have hmk : String.mk ("127.0.0.1:".data ++ port.data) = "127.0.0.1:" ++ port :=
    string_eq_of_data (by simp [data_append])
  simp only [urlToString, hmk]
  have key : ∀ z : String,
      ("/sky/login?redirect=" : String) ++ ("http" ++ ("://" ++ ("127.0.0.1:" ++ z))) =
        ("/sky/login?redirect=http://127.0.0.1:" : String) ++ z := by
    intro z
    rw [← string_append_assoc, ← string_append_assoc, ← string_append_assoc]
    have hlit : ("/sky/login?redirect=" ++ "http" ++ "://" ++ "127.0.0.1:" : String) =
        "/sky/login?redirect=http://127.0.0.1:" := by decide
    rw [hlit]
  simp only [string_append_assoc]
  rw [key]

theorem countE_append (p : Event → Bool) (tr : List Event) (e : Event) :
    countE p (tr ++ [e]) = countE p tr + (if p e then 1 else 0) := by
  cases h : p e <;> simp [countE, List.filter_append, List.filter, h]

theorem invCount_step {tu : String} {s s' : Sys} (h : InvCount s)
    (hs : Step tu s s') : InvCount s' := by
  obtain ⟨h1, h2, h3⟩ := h
  cases hs <;>
    simp_all [InvCount, countE_append, resOf, tokOf, savOf,
      isResultE, isTokenE, isSaveE]

theorem invCount_reach {tu : String} {s s' : Sys} (h : Reach tu s s')
    (h0 : InvCount s) : InvCount s' := by
  induction h with
  | refl => exact h0
  | tail hab hbc ih => exact invCount_step ih hbc

theorem invCount_init (bind reqs so input) :
    InvCount (initSys bind reqs so input) := by
  refine ⟨rfl, rfl, rfl⟩

theorem resOf_le_one (m : MainPC) : resOf m ≤ 1 := by cases m <;> simp [resOf]

theorem tokOf_le_one (m : MainPC) : tokOf m ≤ 1 := by cases m <;> simp [tokOf]

theorem savOf_le_one (m : MainPC) : savOf m ≤ 1 := by cases m <;> simp [savOf]

/-- On a bind failure, only two states are ever reachable: the initial one
and the one where the listener is blocked sending the bind error on
`errorChannel`.  The main goroutine stays blocked at `<-portChannel`, and
the trace stays empty. -/
theorem bindFail_reachable {tu : String} {e : GoError} {reqs so input} {s : Sys}
    (h : Reach tu (initSys (.error e) reqs so input) s) :
    s = initSys (.error e) reqs so input ∨
      s = ⟨.awaitPort, .sendErr e, .notStarted input, []⟩ := by
  induction h with
  | refl => exact Or.inl rfl
  | tail hab hbc ih =>
    rcases ih with h1 | h1 <;> subst h1
    · cases hbc
      exact Or.inr rfl
    · cases hbc

theorem sublist_extend {l tr : List Event} (e : Event)
    (h : List.Sublist l tr) : List.Sublist l (tr ++ [e]) :=
  h.trans (List.sublist_append_left tr [e])

theorem invPort_extend_h4 {tu p : String} {tr : List Event} {e : Event}
    (hne : ∀ line, e ≠ Event.printedLogin line)
    (h4 : ∀ line, Event.printedLogin line ∈ tr →
      loginPrinted tu p = some line ∧
      List.Sublist [Event.portPublished p, Event.printedLogin line] tr) :
    ∀ line, Event.printedLogin line ∈ tr ++ [e] →
      loginPrinted tu p = some line ∧
      List.Sublist [Event.portPublished p, Event.printedLogin line] (tr ++ [e]) := by
  intro line hmem
  rcases List.mem_append.mp hmem with hm | hm
  · exact ⟨(h4 line hm).1, sublist_extend e (h4 line hm).2⟩
  · exact absurd (List.mem_singleton.mp hm).symm (hne line)

theorem invPort_step {tu p : String} {s s' : Sys} (h : InvPort tu p s)
    (hs : Step tu s s') : InvPort tu p s' := by
  obtain ⟨hL, hM, h3, h4⟩ := h
  cases hs with
  | bindFail m t tr e reqs so =>
    exact absurd hL (by simp [listenerPortOk])
  | bindOk m t tr q reqs so =>
    have hq : q = p := by
      have := hL
      simp [listenerPortOk] at this
      exact this
    exact ⟨by simp [listenerPortOk, hq], hM, h3, h4⟩
  | portRendezvous t tr q reqs so =>
    have hq : q = p := by
      have := hL
      simp [listenerPortOk] at this
      exact this
    subst hq
    refine ⟨trivial, by simp [mainPortOk], ?_, ?_⟩
    · intro q' hq'
      have : q' = q := by injection hq' with h'; exact h'.symm
      subst this
      exact List.sublist_append_right tr [Event.portPublished q']
    · exact invPort_extend_h4 (by intro line; simp) h4
  | printUrlOk L t tr q line hli =>
    have hq : q = p := by
      have := hM
      simp [mainPortOk] at this
      exact this
    subst hq
    refine ⟨hL, by simp [mainPortOk], by intro q' hq'; exact absurd hq' (by simp), ?_⟩
    intro line' hmem
    rcases List.mem_append.mp hmem with hm | hm
    · exact ⟨(h4 line' hm).1, sublist_extend _ (h4 line' hm).2⟩
    · have hline : line' = line := by
        have := List.mem_singleton.mp hm
        injection this.symm with h'
        exact h'.symm
      subst hline
      refine ⟨hli, ?_⟩
      have hsub : List.Sublist [Event.portPublished q] tr := h3 q rfl
      have := hsub.append (List.Sublist.refl [Event.printedLogin line'])
      simpa using this
  | printUrlPanic L t tr q hli =>
    refine ⟨hL, trivial, by intro q' hq'; exact absurd hq' (by simp), ?_⟩
    exact invPort_extend_h4 (by intro line; simp) h4
  | startStdin L tr q input =>
    refine ⟨hL, trivial, by intro q' hq'; exact absurd hq' (by simp), ?_⟩
    exact invPort_extend_h4 (by intro line; simp) h4
  | serveNext m t tr q reqs so =>
    exact ⟨trivial, hM, h3, h4⟩
  | serveFail m t tr e =>
    exact ⟨trivial, hM, h3, h4⟩
  | tokenRendezvous t tr tok reqs so =>
    refine ⟨trivial, trivial, by intro q' hq'; exact absurd hq' (by simp), ?_⟩
    exact invPort_extend_h4 (by intro line; simp) h4
  | errRendezvous t tr e =>
    refine ⟨trivial, trivial, by intro q' hq'; exact absurd hq' (by simp), ?_⟩
    exact invPort_extend_h4 (by intro line; simp) h4
  | stdinIterOk m L tr input h1 =>
    exact ⟨hL, hM, h3, h4⟩
  | stdinIterHint m L tr input e h1 h2 =>
    exact ⟨hL, hM, h3, h4⟩
  | stdinIterFatal m L tr input e h1 h2 =>
    exact ⟨hL, hM, h3, h4⟩
  | stdinRendezvous L tr str =>
    refine ⟨hL, trivial, by intro q' hq'; exact absurd hq' (by simp), ?_⟩
    exact invPort_extend_h4 (by intro line; simp) h4
  | stdinErrRendezvous L tr e =>
    refine ⟨hL, trivial, by intro q' hq'; exact absurd hq' (by simp), ?_⟩
    exact invPort_extend_h4 (by intro line; simp) h4
  | splitOk L t tr str a b ha hb =>
    refine ⟨hL, trivial, by intro q' hq'; exact absurd hq' (by simp), ?_⟩
    exact invPort_extend_h4 (by intro line; simp) h4
  | splitPanic L t tr str hb =>
    refine ⟨hL, trivial, by intro q' hq'; exact absurd hq' (by simp), ?_⟩
    exact invPort_extend_h4 (by intro line; simp) h4
  | saveStep L t tr a b =>
    refine ⟨hL, trivial, by intro q' hq'; exact absurd hq' (by simp), ?_⟩
    exact invPort_extend_h4 (by intro line; simp) h4

theorem invPort_reach {tu p : String} {s s' : Sys} (h : Reach tu s s')
    (h0 : InvPort tu p s) : InvPort tu p s' := by
  induction h with
  | refl => exact h0
  | tail hab hbc ih => exact invPort_step ih hbc

theorem invPort_init (p : String) (tu : String) (reqs so input) :
    InvPort tu p (initSys (.ok p) reqs so input) := by
  refine ⟨rfl, trivial, ?_, ?_⟩
  · intro q hq
    exact absurd hq (by simp [initSys])
  · intro line hmem
    exact absurd hmem (by simp [initSys])

theorem sampleRun : Reach tu0 sys0 sysFin := by
  have h1 : Step tu0 sys0
      ⟨.awaitPort, .sendPort "8080" [req0] none, .notStarted input0, []⟩ :=
    Step.bindOk _ _ _ _ _ _
  have h2 : Step tu0
      ⟨.awaitPort, .sendPort "8080" [req0] none, .notStarted input0, []⟩
      ⟨.gotPort "8080", .serving [req0] none, .notStarted input0,
        [.portPublished "8080"]⟩ :=
    Step.portRendezvous _ _ _ _ _
  have h3 : Step tu0
      ⟨.gotPort "8080", .serving [req0] none, .notStarted input0,
        [.portPublished "8080"]⟩
      ⟨.printedUrl "8080", .serving [req0] none, .notStarted input0,
        [.portPublished "8080", .printedLogin line0]⟩ :=
    Step.printUrlOk _ _ _ _ _ (by decide)
  have h4 : Step tu0
      ⟨.printedUrl "8080", .serving [req0] none, .notStarted input0,
        [.portPublished "8080", .printedLogin line0]⟩
      ⟨.selecting, .serving [req0] none, .running input0,
        [.portPublished "8080", .printedLogin line0, .stdinStarted]⟩ :=
    Step.startStdin _ _ _ _
  have h5 : Step tu0
      ⟨.selecting, .serving [req0] none, .running input0,
        [.portPublished "8080", .printedLogin line0, .stdinStarted]⟩
      ⟨.selecting, .sendToken "Bearer abc123" [] none, .running input0,
        [.portPublished "8080", .printedLogin line0, .stdinStarted]⟩ :=
    Step.serveNext _ _ _ _ _ _
  have h6 : Step tu0
      ⟨.selecting, .sendToken "Bearer abc123" [] none, .running input0,
        [.portPublished "8080", .printedLogin line0, .stdinStarted]⟩
      ⟨.selecting, .sendToken "Bearer abc123" [] none, .sendStdin "bearer tok",
        [.portPublished "8080", .printedLogin line0, .stdinStarted]⟩ :=
    Step.stdinIterOk _ _ _ _ (by decide)
  have h7 : Step tu0
      ⟨.selecting, .sendToken "Bearer abc123" [] none, .sendStdin "bearer tok",
        [.portPublished "8080", .printedLogin line0, .stdinStarted]⟩
      ⟨.deciding "bearer tok", .sendToken "Bearer abc123" [] none, .dead,
        [.portPublished "8080", .printedLogin line0, .stdinStarted,
         .tokenFromStdin "bearer tok"]⟩ :=
    Step.stdinRendezvous _ _ _
  have h8 : Step tu0
      ⟨.deciding "bearer tok", .sendToken "Bearer abc123" [] none, .dead,
        [.portPublished "8080", .printedLogin line0, .stdinStarted,
         .tokenFromStdin "bearer tok"]⟩
      ⟨.doneOk "bearer" "tok", .sendToken "Bearer abc123" [] none, .dead,
        [.portPublished "8080", .printedLogin line0, .stdinStarted,
         .tokenFromStdin "bearer tok", .resultOk "bearer" "tok"]⟩ :=
    Step.splitOk _ _ _ _ _ _ (by decide) (by decide)
  have h9 : Step tu0
      ⟨.doneOk "bearer" "tok", .sendToken "Bearer abc123" [] none, .dead,
        [.portPublished "8080", .printedLogin line0, .stdinStarted,
         .tokenFromStdin "bearer tok", .resultOk "bearer" "tok"]⟩
      sysFin :=
    Step.saveStep _ _ _ _ _
  exact Relation.ReflTransGen.tail (Relation.ReflTransGen.tail
    (Relation.ReflTransGen.tail (Relation.ReflTransGen.tail
      (Relation.ReflTransGen.tail (Relation.ReflTransGen.tail
        (Relation.ReflTransGen.tail (Relation.ReflTransGen.tail
          (Relation.ReflTransGen.tail Relation.ReflTransGen.refl
            h1) h2) h3) h4) h5) h6) h7) h8) h9

/-! ## Claims -/

/-- C1: if the callback listener's TCP bind fails, then indeed no port is
published, no login URL is printed, the manual reader is never started and
the race never starts — but, contrary to the claim, the failure is never
reported: in every reachable state the main goroutine is still blocked on
`<-portChannel` (line 128) with an empty trace, while the listener is
blocked sending the bind error on `errorChannel` that only the (never
reached) `select` receives from.  The flow deadlocks instead of surfacing
the error. -/
theorem c1_bind_failure_never_reported {tu : String} {e : GoError}
    {reqs : List (List (String × String))} {so : Option GoError}
    {input : List Char} {s : Sys}
    (h : Reach tu (initSys (.error e) reqs so input) s) :
    s.main = .awaitPort ∧ s.rdr = .notStarted input ∧ s.trace = [] := by
  rcases bindFail_reachable h with h1 | h1 <;> subst h1 <;> exact ⟨rfl, rfl, rfl⟩

/-- Witness for C1 at a concrete one-step run: the listener has moved to
sending the bind error and the system is already stuck. -/
theorem c1_bind_failure_never_reported_witness :
    (Sys.mk .awaitPort (.sendErr (.errMsg "bind: permission denied"))
        (.notStarted []) []).main = .awaitPort ∧
    (Sys.mk .awaitPort (.sendErr (.errMsg "bind: permission denied"))
        (.notStarted []) []).rdr = .notStarted [] ∧
    (Sys.mk .awaitPort (.sendErr (.errMsg "bind: permission denied"))
        (.notStarted []) []).trace = [] :=
  @c1_bind_failure_never_reported "https://atc" (.errMsg "bind: permission denied")
    [] none []
    (Sys.mk .awaitPort (.sendErr (.errMsg "bind: permission denied"))
      (.notStarted []) [])
    (Relation.ReflTransGen.tail Relation.ReflTransGen.refl
      (Step.bindFail _ _ _ _ _ _))

/-- C2: on an exhausted input stream with no tokens captured (EOF),
`waitForTokenInput` does not emit an error and stop as the claim states:
the `count != 2` branch catches the EOF (count is 0), so for every amount
of fuel the loop is still running, has printed the format hint once per
iteration, and has never produced a fatal outcome (nothing is ever sent on
`errorChannel`). -/
theorem c2_eof_never_fatal (fuel : Nat) :
    (waitForTokenInput fuel []).outcome = .looping ∧
    (waitForTokenInput fuel []).hints = fuel ∧
    ∀ e, (waitForTokenInput fuel []).outcome ≠ .fatal e := by
  rw [waitForTokenInput_eof]
  exact ⟨rfl, rfl, fun e h => by simp at h⟩

/-- C3 (counterexample): a callback request with no token parameter (or an
empty one) delivers the empty string to the split step; `SplitN` then
yields a single segment, so the access `segments[1]` is out of range
(modelled as `none`), refuting the claim that every string reaching the
split yields at least two segments. -/
theorem c3_empty_token_out_of_range :
    formValue [] "token" = "" ∧ (splitN2 "").length = 1 ∧
    tokenToCredential "" = none :=
  ⟨rfl, rfl, rfl⟩

/-- C3 (amended): the split access is in bounds exactly when the credential
string contains a space; strings emitted by the manual reader always have
the form `tokenType ++ " " ++ tokenValue` and hence are safe, while a
callback token parameter without a space makes `segments[1]` out of
range. -/
theorem c3_split_inbounds_iff_space (s t1 t2 : String) :
    ((tokenToCredential s).isSome ↔ ' ' ∈ s.data) ∧
    (tokenToCredential (t1 ++ " " ++ t2)).isSome := by
  refine ⟨tokenToCredential_isSome_iff s, ?_⟩
  rw [tokenToCredential_isSome_iff]
  simp [data_append]

/-- C4: the race yields exactly one outcome.  Universally: in every
reachable state of every run, at most one result event, at most one
consumed credential and at most one `saveTarget` call have occurred (the
`select` at lines 142–149 runs once; a producer that loses stays blocked
on its unbuffered send forever).  Concretely: in the sample run both
producers are ready, the manual credential wins, exactly one result is
produced and persisted once, and the callback's credential is never
consumed — the loser stays blocked in its send. -/
theorem c4_token_race_single_outcome :
    (∀ (tu : String) (bind : Except GoError String)
       (reqs : List (List (String × String))) (so : Option GoError)
       (input : List Char) (s : Sys),
       Reach tu (initSys bind reqs so input) s →
       countE isResultE s.trace ≤ 1 ∧ countE isTokenE s.trace ≤ 1 ∧
       countE isSaveE s.trace ≤ 1) ∧
    (Reach tu0 sys0 sysFin ∧
     countE isResultE sysFin.trace = 1 ∧ countE isSaveE sysFin.trace = 1 ∧
     countE isTokenE sysFin.trace = 1 ∧
     sysFin.listener = .sendToken "Bearer abc123" [] none ∧
     Event.tokenFromCallback "Bearer abc123" ∉ sysFin.trace) := by
  constructor
  · intro tu bind reqs so input s h
    obtain ⟨h1, h2, h3⟩ := invCount_reach h (invCount_init bind reqs so input)
    refine ⟨?_, ?_, ?_⟩
    · rw [h1]; exact resOf_le_one _
    · rw [h2]; exact tokOf_le_one _
    · rw [h3]; exact savOf_le_one _
  · exact ⟨sampleRun, by decide, by decide, by decide, rfl, by decide⟩

/-- Witness for C4's universal part at the concrete sample run. -/
theorem c4_token_race_single_outcome_witness :
    countE isResultE sysFin.trace ≤ 1 ∧ countE isTokenE sysFin.trace ≤ 1 ∧
    countE isSaveE sysFin.trace ≤ 1 :=
  c4_token_race_single_outcome.1 tu0 (.ok "8080") [req0] none input0 sysFin
    sampleRun

/-- C5: a callback request whose token query parameter is "Bearer abc123"
makes the handler deliver exactly that string (which the split step turns
into the credential pair ("Bearer", "abc123")) and answer with an HTTP
temporary redirect (status 307) to `targetUrl ++ "/public/fly_success"`. -/
theorem c5_callback_bearer_credential (targetUrl : String) :
    callbackHandler targetUrl [("token", "Bearer abc123")] =
      ("Bearer abc123", 307, targetUrl ++ "/public/fly_success") ∧
    tokenToCredential "Bearer abc123" = some ("Bearer", "abc123") :=
  ⟨rfl, rfl⟩

/-- C6: with both username and password non-empty (and the preceding
validation steps passing), `Execute` performs exactly one `PasswordGrant`
call and never invokes `authCodeGrant` — so no callback listener, manual
reader or race is ever started; an exchange error becomes the result of
the flow with nothing saved, and on success the returned token type and
access token are exactly what `saveTarget` persists. -/
theorem c6_password_grant_skips_race (cmd : LoginCommand) (env : ExecEnv)
    (cc : String) (ti : TargetInfo)
    (hu : cmd.username ≠ "") (hp : cmd.password ≠ "")
    (hT : env.flyTarget ≠ "")
    (hcc : (if cmd.caCert = "" then Except.ok "" else env.readCACertFile) = .ok cc)
    (hti : (if cmd.atcURL ≠ "" then env.newUnauthenticatedTarget
            else env.loadTargetWithInsecure) = .ok ti)
    (hv : env.validateWarn = none) :
    ((executeModel cmd env []).2.filter isPasswordEff).length = 1 ∧
    (executeModel cmd env []).2.filter isAuthCodeEff = [] ∧
    (∀ e, env.passwordGrantResult = .error e →
      (executeModel cmd env []).1 = .error e ∧
      (executeModel cmd env []).2.filter isSaveEff = []) ∧
    (∀ t, env.passwordGrantResult = .ok t →
      ExecEffect.saveTargetCalled ti.clientURL t.tokenType t.accessToken ∈
        (executeModel cmd env []).2) := by
  have hgs : grantStep cmd env ti =
      (passwordGrant env.passwordGrantResult,
        [ExecEffect.passwordGrantCalled cmd.username cmd.password]) := by
    rw [grantStep, if_pos ⟨hu, hp⟩]
  rcases hpg : env.passwordGrantResult with e | t
  · have hx : executeModel cmd env [] =
        (.error e, [ExecEffect.printTeam ti.team,
          ExecEffect.passwordGrantCalled cmd.username cmd.password]) := by
      simp only [executeModel, if_neg hT, hcc, hti, hv, hgs, hpg, passwordGrant]
      simp
    rw [hx]
    refine ⟨by simp [isPasswordEff], by simp [isAuthCodeEff], ?_, ?_⟩
    · intro e' he'
      injection he' with h'
      subst h'
      exact ⟨rfl, by simp [isSaveEff]⟩
    · intro t' ht'
      simp at ht'
  · rcases hsv : env.saveTargetResult with _ | e'
    · have hx : executeModel cmd env [] =
          (.ok (), [ExecEffect.printTeam ti.team,
            ExecEffect.passwordGrantCalled cmd.username cmd.password,
            ExecEffect.printBlank,
            ExecEffect.saveTargetCalled ti.clientURL t.tokenType t.accessToken,
            ExecEffect.printSaved]) := by
        simp only [executeModel, if_neg hT, hcc, hti, hv, hgs, hpg,
          passwordGrant, hsv]
        simp
      rw [hx]
      refine ⟨by simp [isPasswordEff], by simp [isAuthCodeEff], ?_, ?_⟩
      · intro e' he'
        simp at he'
      · intro t' ht'
        injection ht' with h'
        subst h'
        simp
    · have hx : executeModel cmd env [] =
          (.error e', [ExecEffect.printTeam ti.team,
            ExecEffect.passwordGrantCalled cmd.username cmd.password,
            ExecEffect.printBlank,
            ExecEffect.saveTargetCalled ti.clientURL t.tokenType t.accessToken]) := by
        simp only [executeModel, if_neg hT, hcc, hti, hv, hgs, hpg,
          passwordGrant, hsv]
        simp
      rw [hx]
      refine ⟨by simp [isPasswordEff], by simp [isAuthCodeEff], ?_, ?_⟩
      · intro e'' he''
        simp at he''
      · intro t' ht'
        injection ht' with h'
        subst h'
        simp

/-- Witness for C6 at the spec's example configuration. -/
theorem c6_password_grant_skips_race_witness :
    ((executeModel cmd0 env0 []).2.filter isPasswordEff).length = 1 ∧
    (executeModel cmd0 env0 []).2.filter isAuthCodeEff = [] ∧
    (∀ e, env0.passwordGrantResult = .error e →
      (executeModel cmd0 env0 []).1 = .error e ∧
      (executeModel cmd0 env0 []).2.filter isSaveEff = []) ∧
    (∀ t, env0.passwordGrantResult = .ok t →
      ExecEffect.saveTargetCalled ti0.clientURL t.tokenType t.accessToken ∈
        (executeModel cmd0 env0 []).2) :=
  c6_password_grant_skips_race cmd0 env0 "" ti0
    (by decide) (by decide) (by decide) rfl rfl rfl

/-- C7: in any run whose listener reported the (digit-string) port `p`,
every printed login line is exactly
`"    " ++ targetUrl ++ "/sky/login?redirect=http://127.0.0.1:" ++ p ++ "/auth/callback"`,
and the trace contains the port report strictly before the printed line
(the port is received at line 128 before the URL is built and printed at
lines 130–137). -/
theorem c7_login_url_exact_port (tu p : String)
    (reqs : List (List (String × String))) (so : Option GoError)
    (input : List Char) (s : Sys) (line : String)
    (hdig : ∀ c ∈ p.data, c.isDigit)
    (h : Reach tu (initSys (.ok p) reqs so input) s)
    (hmem : Event.printedLogin line ∈ s.trace) :
    line = "    " ++ tu ++ "/sky/login?redirect=http://127.0.0.1:" ++ p ++
      "/auth/callback" ∧
    List.Sublist [Event.portPublished p, Event.printedLogin line] s.trace := by
  obtain ⟨-, -, -, h4⟩ := invPort_reach h (invPort_init p tu reqs so input)
  obtain ⟨hline, hsub⟩ := h4 line hmem
  rw [loginPrinted_digits hdig] at hline
  exact ⟨(Option.some.inj hline).symm, hsub⟩

/-- Witness for C7 at the sample run. -/
theorem c7_login_url_exact_port_witness :
    line0 = "    " ++ tu0 ++ "/sky/login?redirect=http://127.0.0.1:" ++ "8080" ++
      "/auth/callback" ∧
    List.Sublist [Event.portPublished "8080", Event.printedLogin line0]
      sysFin.trace :=
  c7_login_url_exact_port tu0 "8080" [req0] none input0 sysFin line0
    (by decide) sampleRun (by decide)

/-- C8: a manual input line of exactly two whitespace-separated tokens
makes the reader emit the joined credential exactly once — one prompt, no
format hint, the loop breaks with the rest of the stream unread — and the
join-then-split pipeline of lines 210/151–153 recovers the pair exactly. -/
theorem c8_two_token_line {sp1 t1 sp2 t2 r : List Char} (fuel : Nat)
    (hsp1 : ∀ c ∈ sp1, c = ' ') (hsp2 : ∀ c ∈ sp2, c = ' ')
    (ht1 : t1 ≠ []) (ht1w : ∀ c ∈ t1, wordChar c = true)
    (ht2 : t2 ≠ []) (ht2w : ∀ c ∈ t2, wordChar c = true)
    (hr : boundaryOk r) :
    waitForTokenInput (fuel + 1) (sp1 ++ (t1 ++ (' ' :: (sp2 ++ (t2 ++ r))))) =
      ⟨.token (String.mk t1 ++ " " ++ String.mk t2), r, 1, 0⟩ ∧
    tokenToCredential (String.mk t1 ++ " " ++ String.mk t2) =
      some (String.mk t1, String.mk t2) := by
  refine ⟨waitForTokenInput_two_tokens fuel hsp1 hsp2 ht1 ht1w ht2 ht2w hr, ?_⟩
  apply tokenToCredential_join
  intro hm
  have := ht1w ' ' hm
  simp [wordChar] at this

/-- Witness for C8 on the line "Bearer abc123". -/
theorem c8_two_token_line_witness :
    waitForTokenInput 1
        ([] ++ ("Bearer".data ++ (' ' :: ([] ++ ("abc123".data ++ ['\n']))))) =
      ⟨.token (String.mk "Bearer".data ++ " " ++ String.mk "abc123".data),
        ['\n'], 1, 0⟩ ∧
    tokenToCredential (String.mk "Bearer".data ++ " " ++ String.mk "abc123".data) =
      some (String.mk "Bearer".data, String.mk "abc123".data) :=
  @c8_two_token_line [] "Bearer".data [] "abc123".data ['\n'] 0
    (by decide) (by decide) (by decide) (by decide) (by decide) (by decide)
    rfl

/-- C9 (counterexample): the manual line "Bearer abc def" does not retain
"def" in the value.  `fmt.Scanf("%s %s", ...)` consumes exactly two
tokens, the reader emits "Bearer abc" (leaving " def" unread), and the
split yields ("Bearer", "abc"), not ("Bearer", "abc def") as the claimed
retention would require. -/
theorem c9_extra_content_dropped :
    (waitForTokenInput 1 ("Bearer abc def\n".data)).outcome =
      .token "Bearer abc" ∧
    (waitForTokenInput 1 ("Bearer abc def\n".data)).rest = " def\n".data ∧
    tokenToCredential "Bearer abc" = some ("Bearer", "abc") ∧
    (("Bearer" : String), ("abc" : String)) ≠ (("Bearer" : String), ("abc def" : String)) := by
  exact ⟨by decide, by decide, by decide, by decide⟩

/-- C9 (amended): the split-at-the-first-boundary-with-retention behaviour
belongs to the `SplitN` step of `authCodeGrant` (lines 151–153): there,
everything after the first space is retained in `segments[1]`.  Manual
input, by contrast, is tokenized by `Scanf` into exactly two
whitespace-free tokens before joining, so content on the line after the
second token is left unread and never becomes part of the value. -/
theorem c9_first_boundary_split_location {a b t1 t2 t3 r : List Char}
    (fuel : Nat) (ha : ' ' ∉ a)
    (ht1 : t1 ≠ []) (ht1w : ∀ c ∈ t1, wordChar c = true)
    (ht2 : t2 ≠ []) (ht2w : ∀ c ∈ t2, wordChar c = true) :
    splitN2 (String.mk a ++ " " ++ String.mk b) = [String.mk a, String.mk b] ∧
    waitForTokenInput (fuel + 1) (t1 ++ (' ' :: (t2 ++ (' ' :: (t3 ++ r))))) =
      ⟨.token (String.mk t1 ++ " " ++ String.mk t2), ' ' :: (t3 ++ r), 1, 0⟩ := by
  refine ⟨splitN2_join ha, ?_⟩
  have h := @waitForTokenInput_two_tokens [] t1 [] t2 (' ' :: (t3 ++ r)) fuel
    (by simp) (by simp) ht1 ht1w ht2 ht2w (boundaryOk_space_cons (t3 ++ r))
  simpa using h

/-- Witness for C9's amended statement on concrete inputs. -/
theorem c9_first_boundary_split_location_witness :
    splitN2 (String.mk "Bearer".data ++ " " ++ String.mk "abc def".data) =
      [String.mk "Bearer".data, String.mk "abc def".data] ∧
    waitForTokenInput 1
        ("Bearer".data ++ (' ' :: ("abc".data ++ (' ' :: ("def".data ++ ['\n']))))) =
      ⟨.token (String.mk "Bearer".data ++ " " ++ String.mk "abc".data),
        ' ' :: ("def".data ++ ['\n']), 1, 0⟩ :=
  @c9_first_boundary_split_location "Bearer".data "abc def".data
    "Bearer".data "abc".data "def".data ['\n'] 0
    (by decide) (by decide) (by decide) (by decide) (by decide)

/-- C10: a malformed manual line — zero tokens (spaces then newline) or
one token — makes the reader print the format hint once, consume the line
and re-prompt: its behaviour on the rest of the stream is unchanged (one
more prompt and one more hint), no credential is produced for that line,
and no fatal outcome arises from it. -/
theorem c10_malformed_line_reprompts {sp1 t sp2 rest : List Char}
    (fuel : Nat)
    (hsp1 : ∀ c ∈ sp1, c = ' ') (hsp2 : ∀ c ∈ sp2, c = ' ')
    (ht0 : t ≠ []) (htw : ∀ c ∈ t, wordChar c = true) :
    waitForTokenInput (fuel + 1) (sp1 ++ '\n' :: rest) =
      ⟨(waitForTokenInput fuel rest).outcome, (waitForTokenInput fuel rest).rest,
       (waitForTokenInput fuel rest).prompts + 1,
       (waitForTokenInput fuel rest).hints + 1⟩ ∧
    waitForTokenInput (fuel + 1) (sp1 ++ (t ++ (sp2 ++ '\n' :: rest))) =
      ⟨(waitForTokenInput fuel rest).outcome, (waitForTokenInput fuel rest).rest,
       (waitForTokenInput fuel rest).prompts + 1,
       (waitForTokenInput fuel rest).hints + 1⟩ :=
  ⟨waitForTokenInput_zero_tokens fuel hsp1,
   waitForTokenInput_one_token fuel hsp1 hsp2 ht0 htw⟩

/-- Witness for C10: the empty line and the one-token line "foo", each
followed by the valid line "bearer tok". -/
theorem c10_malformed_line_reprompts_witness :
    waitForTokenInput 2 ([] ++ '\n' :: "bearer tok\n".data) =
      ⟨(waitForTokenInput 1 "bearer tok\n".data).outcome,
       (waitForTokenInput 1 "bearer tok\n".data).rest,
       (waitForTokenInput 1 "bearer tok\n".data).prompts + 1,
       (waitForTokenInput 1 "bearer tok\n".data).hints + 1⟩ ∧
    waitForTokenInput 2 ([] ++ ("foo".data ++ ([] ++ '\n' :: "bearer tok\n".data))) =
      ⟨(waitForTokenInput 1 "bearer tok\n".data).outcome,
       (waitForTokenInput 1 "bearer tok\n".data).rest,
       (waitForTokenInput 1 "bearer tok\n".data).prompts + 1,
       (waitForTokenInput 1 "bearer tok\n".data).hints + 1⟩ :=
  @c10_malformed_line_reprompts [] "foo".data [] "bearer tok\n".data 1
    (by decide) (by decide) (by decide) (by decide)

end FlyLogin

